import Mathlib

/-!
Verification of the test-orchestration harness `compiler/tools/test_runner.py`.

Strings captured from subprocesses are modelled as `List Char` (the Python code
decodes all captured bytes as UTF-8 before comparing, so character lists are the
right level of abstraction).  Python functions that can raise are modelled as
`Except PyError`-valued functions; `None`-vs-string verdicts are `Option String`
(`none` = the test passed, `some reason` = the test failed).  External
subprocesses (the compiler binary and the compiled artifacts) are modelled as an
environment `Env` mapping paths to captured behaviour.
-/

namespace TestRunner

/-- The Python exceptions that the harness code can actually raise. -/
inductive PyError where
  | indexError
  | valueError
  | assertionError
deriving DecidableEq

/-- Result of running a compiled artifact: `subprocess.run` gives the process
exit code and the decoded captured `stdout` / `stderr` texts. -/
structure RunResult where
  returncode : Int
  stdout : List Char
  stderr : List Char
deriving DecidableEq

/-- Behaviour of the external world during one run: what the compiler prints
(`compile_file` captures and decodes `stdout` of the compiler process, as a
function of the `--out` artifact path and the source path), and how each
compiled artifact behaves when executed. -/
structure Env where
  compileOut : List Char → List Char → List Char
  runExe : List Char → RunResult

/-- The single-quote character `'` (codepoint 39). -/
def quoteChar : Char := Char.ofNat 39

/-- The backslash character (codepoint 92). -/
def backslashChar : Char := Char.ofNat 92

/-- Python `str.strip()`: remove whitespace from both ends. -/
def pyStrip (s : List Char) : List Char :=
  ((s.dropWhile Char.isWhitespace).reverse.dropWhile Char.isWhitespace).reverse

/-- Numeric value of a list of decimal digit characters. -/
def digitsVal (l : List Char) : Nat :=
  l.foldl (fun a c => a * 10 + (c.toNat - 48)) 0

/-- Python `int(s)` on ordinary ASCII decimal literals: strip whitespace, an
optional sign, then decimal digits; anything else raises `ValueError`
(modelled as `none`). -/
def pyInt (s : List Char) : Option Int :=
  let t := pyStrip s
  match t with
  | [] => none
  | c :: rest =>
    if c = '-' then
      if rest ≠ [] ∧ rest.all Char.isDigit then some (-(digitsVal rest : Int)) else none
    else if c = '+' then
      if rest ≠ [] ∧ rest.all Char.isDigit then some ((digitsVal rest : Nat) : Int) else none
    else if t.all Char.isDigit then some ((digitsVal t : Nat) : Int) else none

/-- Does `hay` begin with `pat`? -/
def startsWith : List Char → List Char → Bool
  | [], _ => true
  | _ :: _, [] => false
  | p :: ps, h :: hs => decide (p = h) && startsWith ps hs

/-- Index (0-based) of the first occurrence of `pat` in `hay`, if any. -/
def indexOf (pat : List Char) : List Char → Option Nat
  | [] => if startsWith pat [] then some 0 else none
  | c :: rest =>
    if startsWith pat (c :: rest) then some 0
    else (indexOf pat rest).map (· + 1)

/-- Python `hay.index(pat, start)`: index of the first occurrence of `pat` in
`hay` at position `start` or later (`none` models the `ValueError`). -/
def indexOfFrom (pat hay : List Char) (start : Nat) : Option Nat :=
  (indexOf pat (hay.drop start)).map (· + start)

/-- Occurrence predicate: `pat` occurs in `hay` at position `i` (all patterns used below are
nonempty, for which this take/drop equation is exactly substring occurrence). -/
def occursAt (pat hay : List Char) (i : Nat) : Prop :=
  (hay.drop i).take pat.length = pat

instance (pat hay : List Char) (i : Nat) : Decidable (occursAt pat hay i) := by
  unfold occursAt; infer_instance

/-- First-occurrence predicate: `i` is the first position at or after `start` where `pat` occurs in `hay`. -/
def firstOccurFromSpec (pat hay : List Char) (start i : Nat) : Prop :=
  start ≤ i ∧ occursAt pat hay i ∧ ∀ j < i, start ≤ j → ¬ occursAt pat hay j

instance (pat hay : List Char) (start i : Nat) :
    Decidable (firstOccurFromSpec pat hay start i) := by
  unfold firstOccurFromSpec; infer_instance

/-- The panic marker the artifact prints on `stderr`. -/
def panicMarker : List Char := "gallium: panicked!".data

/-- The message marker (including the opening single quote). -/
def messageMarker : List Char := "  message: ".data ++ [quoteChar]

/-- The single-quote pattern searched for by `find_reason`. -/
def quoteStr : List Char := [quoteChar]

/-- Model of `find_reason` from the source: locate the first panic marker, the first
`  message: '` at or after it, the first quote at or after that, the next
quote after it, and return the text strictly between the two quotes.  Each
failing `str.index` raises `ValueError`, caught and turned into `None`. -/
def find_reason (output : List Char) : Option (List Char) :=
  (indexOfFrom panicMarker output 0).bind fun panic_begin =>
  (indexOfFrom messageMarker output panic_begin).bind fun message_begin =>
  (indexOfFrom quoteStr output message_begin).bind fun begin_quote =>
  (indexOfFrom quoteStr output (begin_quote + 1)).map fun end_quote =>
  (output.take end_quote).drop (begin_quote + 1)

/-- Failure text for a return-code mismatch (`execute_should_run`).  The
expected value is rendered from the raw directive string, the actual value from
the integer exit code, exactly as the Python f-string does. -/
def retMismatchMsg (expected : List Char) (actual : Int) : String :=
  "return code did not match! expected `" ++ String.mk expected ++
    "` but got `" ++ toString actual ++ "`"

/-- Failure text for a stdout mismatch (`execute_should_run`). -/
def outMismatchMsg (expected actual : List Char) : String :=
  "output did not match! expected `" ++ String.mk expected ++
    "` but got `" ++ String.mk actual ++ "`"

/-- Failure text for a panic-reason mismatch (`execute_should_panic`). -/
def panicMismatchMsg (expected actual : List Char) : String :=
  "expected reason `" ++ String.mk expected ++
    "`, but got reason `" ++ String.mk actual ++ "`"

/-- Model of `execute_should_run` from the source.  Running the artifact is abstracted
by its `RunResult`; `args` is the parsed directive argument list
(`args[0]` = expected return code text, `args[1]` = expected output or the
sentinel `"none"`).  Out-of-range accesses and a non-numeric `int(args[0])`
raise, exactly as in Python. -/
def execute_should_run (res : RunResult) (args : List (List Char)) :
    Except PyError (Option String) :=
  match args.get? 0 with
  | none => .error .indexError
  | some a0 =>
    match pyInt a0 with
    | none => .error .valueError
    | some expected =>
      if expected ≠ res.returncode then
        .ok (some (retMismatchMsg a0 res.returncode))
      else
        match args.get? 1 with
        | none => .error .indexError
        | some a1 =>
          if a1 ≠ "none".data ∧ a1 ≠ res.stdout then
            .ok (some (outMismatchMsg a1 res.stdout))
          else .ok none

/-- Model of `execute_should_panic` from the source: extract the panic reason from the
artifact's `stderr` and compare it with `args[0]`. -/
def execute_should_panic (res : RunResult) (args : List (List Char)) :
    Except PyError (Option String) :=
  match find_reason res.stderr with
  | none => .ok (some "expected a panic, but did not get one!")
  | some reason =>
    match args.get? 0 with
    | none => .error .indexError
    | some a0 =>
      if reason ≠ a0 then .ok (some (panicMismatchMsg a0 reason))
      else .ok none

/-- Sanitizer from `execute_test`: replace every path separator (forward or
backward slash) in the source path by an underscore. -/
def sanitize (file : List Char) : List Char :=
  (file.map fun c => if c = '/' then '_' else c).map
    fun c => if c = backslashChar then '_' else c

/-- Artifact path for a test source file.  The Python code builds
`os.path.abspath(os.path.join(os.path.curdir, "__tmp/", sanitized))`; the
current working directory is fixed for the whole run and the sanitized name
contains no separators, so `abspath` only prepends a constant prefix, which is
dropped here (it cancels in every path comparison). -/
def artifact (file : List Char) : List Char :=
  "__tmp/".data ++ sanitize file

/-- A discovered test task, `(file, test, args)` as built in `main`. -/
abbrev TaskTuple := List Char × List Char × List (List Char)

/-- What one worker returns for one task (or the exception it raises). -/
abbrev TaskResult := Except PyError (Option String)

/-- Model of `execute_test` from the source: compile the file into the shared workspace,
gate on the compiler printing nothing but whitespace, then dispatch on the test
type.  Any test type other than `should-run` / `should-panic` (including
`should-assert`) falls into the `case _: assert False` branch. -/
def execute_test (env : Env) (tup : TaskTuple) : TaskResult :=
  let file := tup.1
  let test := tup.2.1
  let args := tup.2.2
  let out := artifact file
  let compile_output := env.compileOut out file
  if test = "should-run".data then
    if pyStrip compile_output ≠ [] then .ok (some "error from compiler!")
    else execute_should_run (env.runExe out) args
  else if test = "should-panic".data then
    if pyStrip compile_output ≠ [] then .ok (some "error from compiler!")
    else execute_should_panic (env.runExe out) args
  else .error .assertionError

/-- Python `line.split(sep)[1]`: the piece of `line` strictly between the first
occurrence of `sep` and the next non-overlapping occurrence (or everything
after the first occurrence when it is the only one); `none` models the
`IndexError` raised when `sep` does not occur at all. -/
def splitSecond (sep line : List Char) : Option (List Char) :=
  match indexOf sep line with
  | none => none
  | some i =>
    let rest := line.drop (i + sep.length)
    match indexOf sep rest with
    | none => some rest
    | some j => some (rest.take j)

/-- Directive tags from `read_test`. -/
def testTag : List Char := "// test: ".data

/-- Tag of the expected-return-code line. -/
def returnsTag : List Char := "// returns: ".data

/-- Tag of the expected-output line. -/
def outputsTag : List Char := "// outputs: ".data

/-- Tag of the expected-panic-reason line. -/
def reasonTag : List Char := "// reason: ".data

/-- Model of `read_test` from the source, on the raw lines of the file: strip every
line, take the text after `// test: ` on line 0 (stripped), then read the
positional argument lines for the declared type.  `should-fail-compile` and
unknown types hit `assert False`; missing lines or missing tags raise
`IndexError`. -/
def read_test (rawLines : List (List Char)) :
    Except PyError (List Char × List (List Char)) :=
  let lines := rawLines.map pyStrip
  match lines.get? 0 with
  | none => .error .indexError
  | some l0 =>
    match splitSecond testTag l0 with
    | none => .error .indexError
    | some t0 =>
      let test := pyStrip t0
      if test = "should-run".data then
        match lines.get? 1 with
        | none => .error .indexError
        | some l1 =>
          match splitSecond returnsTag l1 with
          | none => .error .indexError
          | some a0 =>
            match lines.get? 2 with
            | none => .error .indexError
            | some l2 =>
              match splitSecond outputsTag l2 with
              | none => .error .indexError
              | some a1 => .ok (test, [a0, a1])
      else if test = "should-fail-compile".data then .error .assertionError
      else if test = "should-panic".data then
        match lines.get? 1 with
        | none => .error .indexError
        | some l1 =>
          match splitSecond reasonTag l1 with
          | none => .error .indexError
          | some a0 => .ok (test, [a0])
      else if test = "should-assert".data then
        match lines.get? 1 with
        | none => .error .indexError
        | some l1 =>
          match splitSecond reasonTag l1 with
          | none => .error .indexError
          | some a0 => .ok (test, [a0])
      else .error .assertionError

/-- One scheduler step of the worker pool: worker finishing task `i` stores
that task's result at index `i` of the shared result table. -/
def schedStep (env : Env) (tests : List TaskTuple)
    (tbl : Nat → Option TaskResult) (i : Nat) : Nat → Option TaskResult :=
  match tests.get? i with
  | some t => fun j => if j = i then some (execute_test env t) else tbl j
  | none => tbl

/-- Result table after the workers complete in the given `order`. -/
def schedRun (env : Env) (tests : List TaskTuple) (order : List Nat) :
    Nat → Option TaskResult :=
  order.foldl (schedStep env tests) fun _ => none

/-- Model of `parallel_execute` from the source, modelling `multiprocessing.Pool.map`:
workers may complete in any `order`, each result is stored at the input index
of its task, and the collected list reads the table back in input order. -/
def parallel_execute (env : Env) (tests : List TaskTuple) (order : List Nat) :
    List (Option TaskResult) :=
  (List.range tests.length).map (schedRun env tests order)

/-- The discovery loop in `main`: parse each discovered file in order into a
`(path, test, args)` task; the first exception aborts the whole loop, exactly
as an uncaught `read_test` exception does in Python. -/
def gatherTests : List (List Char × List (List Char)) →
    Except PyError (List TaskTuple)
  | [] => .ok []
  | pf :: rest =>
    match read_test pf.2 with
    | .error e => .error e
    | .ok ta => (gatherTests rest).map fun ts => (pf.1, ta.1, ta.2) :: ts

/-- Collecting `Pool.map` results: a worker exception is re-raised in the
parent (the first one in index order is picked here; which one Python raises
does not affect any judgement since all of them abort the run). -/
def collectResults : List (Option TaskResult) → Except PyError (List (Option String))
  | [] => .ok []
  | none :: _ => .error .indexError
  | some (.error e) :: _ => .error e
  | some (.ok r) :: rest => (collectResults rest).map (r :: ·)

/-- The body of `main`'s `try` block: discover and parse all tests, run them
through the pool, and pair each discovered path with its outcome in discovery
order. -/
def runBody (env : Env) (files : List (List Char × List (List Char)))
    (order : List Nat) : Except PyError (List (List Char × Option String)) := do
  let tests ← gatherTests files
  let results ← collectResults (parallel_execute env tests order)
  return (tests.map fun t => t.1).zip results

/-- Filesystem operations `main` performs on the workspace directory. -/
inductive FsOp where
  | mkdirTmp
  | rmtreeTmp
deriving DecidableEq

/-- Model of `main` from the source: `os.mkdir` the workspace, run the body; on any
exception remove the workspace and re-raise, otherwise remove the workspace
and finish.  The first component is the ordered trace of workspace filesystem
operations, the second the run's result (an `.error` models the process dying
on an uncaught exception). -/
def main (env : Env) (files : List (List Char × List (List Char)))
    (order : List Nat) :
    List FsOp × Except PyError (List (List Char × Option String)) :=
  match runBody env files order with
  | .error e => ([FsOp.mkdirTmp] ++ [FsOp.rmtreeTmp], .error e)
  | .ok r => ([FsOp.mkdirTmp] ++ [FsOp.rmtreeTmp], .ok r)

/-- Does the workspace directory (with everything inside it) still exist after
replaying a trace of filesystem operations?  `rmtreeTmp` removes the directory
recursively, so nothing inside it survives either. -/
def tmpExistsAfter (ops : List FsOp) : Bool :=
  ops.foldl (fun _ op => match op with | FsOp.mkdirTmp => true | FsOp.rmtreeTmp => false)
    false

/-- The declarative reading of the panic protocol: the panic marker occurs
(first occurrence `p`), `  message: '` occurs at or after it (first occurrence
`m`), and `r` is the text strictly between the marker's opening quote (at
`m + 11`) and the first closing quote after it (at `e`). -/
def extractedReason (E r : List Char) : Prop :=
  ∃ p m e, firstOccurFromSpec panicMarker E 0 p ∧
    firstOccurFromSpec messageMarker E p m ∧
    firstOccurFromSpec quoteStr E (m + 12) e ∧
    r = (E.take e).drop (m + 12)

/-- Concrete stderr realising the full panic protocol with reason `oops`. -/
def panicDemoStderr : List Char :=
  "gallium: panicked!\n  message: ".data ++ [quoteChar] ++ "oops".data ++
    [quoteChar] ++ "\n".data

/-- A run environment whose compiler prints nothing and whose artifacts exit 0
silently. -/
def envNull : Env := { compileOut := fun _ _ => [], runExe := fun _ => ⟨0, [], []⟩ }

/-- A run environment whose compiler prints a single newline (non-empty but
whitespace-only output). -/
def envWhitespace : Env :=
  { compileOut := fun _ _ => [Char.ofNat 10], runExe := fun _ => ⟨0, [], []⟩ }

/-- Canonical form of a character under the artifact sanitizer: path
separators and underscores all become underscores. -/
def canonChar (c : Char) : Char :=
  if c = '/' ∨ c = backslashChar ∨ c = '_' then '_' else c

/-- A well-formed should-run test file. -/
def goodRunFile : List Char × List (List Char) :=
  ("t1.gal".data,
    ["// test: should-run".data, "// returns: 0".data, "// outputs: none".data])

/-- A test file declaring the reserved `should-fail-compile` type. -/
def failCompileFile : List Char × List (List Char) :=
  ("t2.gal".data, ["// test: should-fail-compile".data])

/-- Two demo tasks for the scheduling witnesses. -/
def demoTests : List TaskTuple :=
  [("a.gal".data, "should-run".data, ["0".data, "none".data]),
   ("b.gal".data, "should-panic".data, ["x".data])]

/-! ### Characterisation of the substring scanning primitives -/

theorem startsWith_iff (pat : List Char) :
    ∀ hay : List Char, startsWith pat hay = true ↔ hay.take pat.length = pat := by
  induction pat with
  | nil => intro hay; simp [startsWith]
  | cons p ps ih =>
    intro hay
    cases hay with
    | nil => simp [startsWith]
    | cons h hs =>
      simp only [startsWith, Bool.and_eq_true, decide_eq_true_eq, List.length_cons,
        List.take_succ_cons, List.cons.injEq, ih]
      exact ⟨fun ⟨a, b⟩ => ⟨a.symm, b⟩, fun ⟨a, b⟩ => ⟨a.symm, b⟩⟩

theorem occursAt_cons_succ (pat : List Char) (c : Char) (hay : List Char) (i : Nat) :
    occursAt pat (c :: hay) (i + 1) ↔ occursAt pat hay i := by
  simp [occursAt, List.drop_succ_cons]

theorem indexOf_eq_some_iff (pat : List Char) :
    ∀ (hay : List Char) (i : Nat),
      indexOf pat hay = some i ↔
        occursAt pat hay i ∧ ∀ j < i, ¬ occursAt pat hay j := by
  intro hay
  induction hay with
  | nil =>
    intro i
    by_cases h : startsWith pat [] = true
    · rw [startsWith_iff] at h
      have hocc : ∀ j : Nat, occursAt pat ([] : List Char) j := by
        intro j; simpa [occursAt] using h
      simp only [indexOf, if_pos ((startsWith_iff pat []).mpr h)]
      cases i with
      | zero => simp [hocc 0]
      | succ n =>
        simp only [Option.some.injEq]
        constructor
        · intro h0; exact absurd h0 (by omega)
        · rintro ⟨_, hmin⟩; exact absurd (hocc 0) (hmin 0 (Nat.succ_pos n))
    · have hnocc : ∀ j : Nat, ¬ occursAt pat ([] : List Char) j := by
        intro j hc
        exact h ((startsWith_iff pat []).mpr (by simpa [occursAt] using hc))
      simp only [indexOf, if_neg h]
      constructor
      · intro h0; exact Option.noConfusion h0
      · rintro ⟨h0, _⟩; exact absurd h0 (hnocc i)
  | cons c hs ih =>
    intro i
    by_cases h : startsWith pat (c :: hs) = true
    · have hocc0 : occursAt pat (c :: hs) 0 := by
        simpa [occursAt] using (startsWith_iff pat (c :: hs)).mp h
      simp only [indexOf, if_pos h]
      cases i with
      | zero => simp [hocc0]
      | succ n =>
        simp only [Option.some.injEq]
        constructor
        · intro h0; exact absurd h0 (by omega)
        · rintro ⟨_, hmin⟩; exact absurd hocc0 (hmin 0 (Nat.succ_pos n))
    · have hnot0 : ¬ occursAt pat (c :: hs) 0 := by
        intro hc
        exact h ((startsWith_iff pat (c :: hs)).mpr (by simpa [occursAt] using hc))
      simp only [indexOf, if_neg h]
      rw [Option.map_eq_some']
      cases i with
      | zero =>
        constructor
        · rintro ⟨a, _, ha⟩; exact absurd ha (by omega)
        · rintro ⟨h0, _⟩; exact absurd h0 hnot0
      | succ n =>
        constructor
        · rintro ⟨a, hsome, ha⟩
          have ha2 : a = n := by omega
          rw [ha2] at hsome
          obtain ⟨hocc, hmin⟩ := (ih n).mp hsome
          refine ⟨(occursAt_cons_succ pat c hs n).mpr hocc, ?_⟩
          intro j hj
          cases j with
          | zero => exact hnot0
          | succ m =>
            intro hcm
            exact hmin m (by omega) ((occursAt_cons_succ pat c hs m).mp hcm)
        · rintro ⟨hocc, hmin⟩
          refine ⟨n, (ih n).mpr ⟨(occursAt_cons_succ pat c hs n).mp hocc, ?_⟩, rfl⟩
          intro m hm hcm
          exact hmin (m + 1) (by omega) ((occursAt_cons_succ pat c hs m).mpr hcm)

theorem indexOf_eq_none_iff (pat : List Char) :
    ∀ hay : List Char, indexOf pat hay = none ↔ ∀ i, ¬ occursAt pat hay i := by
  intro hay
  induction hay with
  | nil =>
    by_cases h : startsWith pat [] = true
    · rw [startsWith_iff] at h
      simp only [indexOf, if_pos ((startsWith_iff pat []).mpr h)]
      constructor
      · intro h0; exact Option.noConfusion h0
      · intro hall; exact absurd (show occursAt pat ([] : List Char) 0 by
          simpa [occursAt] using h) (hall 0)
    · simp only [indexOf, if_neg h]
      constructor
      · intro _ i hc
        exact h ((startsWith_iff pat []).mpr (by simpa [occursAt] using hc))
      · intro _; trivial
  | cons c hs ih =>
    by_cases h : startsWith pat (c :: hs) = true
    · simp only [indexOf, if_pos h]
      constructor
      · intro h0; exact Option.noConfusion h0
      · intro hall
        exact absurd (show occursAt pat (c :: hs) 0 by
          simpa [occursAt] using (startsWith_iff pat (c :: hs)).mp h) (hall 0)
    · have hnot0 : ¬ occursAt pat (c :: hs) 0 := by
        intro hc
        exact h ((startsWith_iff pat (c :: hs)).mpr (by simpa [occursAt] using hc))
      simp only [indexOf, if_neg h]
      rw [Option.map_eq_none', ih]
      constructor
      · intro hall i
        cases i with
        | zero => exact hnot0
        | succ n => exact fun hc => hall n ((occursAt_cons_succ pat c hs n).mp hc)
      · intro hall n hc
        exact hall (n + 1) ((occursAt_cons_succ pat c hs n).mpr hc)

theorem occursAt_add (pat hay : List Char) (s k : Nat) :
    occursAt pat hay (s + k) ↔ occursAt pat (hay.drop s) k := by
  unfold occursAt
  rw [List.drop_drop]

theorem indexOfFrom_eq_some_iff (pat hay : List Char) (s i : Nat) :
    indexOfFrom pat hay s = some i ↔ firstOccurFromSpec pat hay s i := by
  unfold indexOfFrom firstOccurFromSpec
  rw [Option.map_eq_some']
  constructor
  · rintro ⟨k, hk, rfl⟩
    obtain ⟨hocc, hmin⟩ := (indexOf_eq_some_iff pat (hay.drop s) k).mp hk
    refine ⟨by omega, ?_, ?_⟩
    · have h2 := (occursAt_add pat hay s k).mpr hocc
      rwa [Nat.add_comm s k] at h2
    · intro j hj hsj hcj
      have hje : s + (j - s) = j := by omega
      refine hmin (j - s) (by omega) ((occursAt_add pat hay s (j - s)).mp ?_)
      rwa [hje]
  · rintro ⟨hsi, hocc, hmin⟩
    refine ⟨i - s, (indexOf_eq_some_iff pat (hay.drop s) (i - s)).mpr ⟨?_, ?_⟩, by omega⟩
    · refine (occursAt_add pat hay s (i - s)).mp ?_
      have hie : s + (i - s) = i := by omega
      rwa [hie]
    · intro j hj hcj
      exact hmin (s + j) (by omega) (by omega) ((occursAt_add pat hay s j).mpr hcj)

theorem indexOfFrom_eq_none_iff (pat hay : List Char) (s : Nat) :
    indexOfFrom pat hay s = none ↔ ∀ i, s ≤ i → ¬ occursAt pat hay i := by
  unfold indexOfFrom
  rw [Option.map_eq_none', indexOf_eq_none_iff]
  constructor
  · intro hall i hsi hoc
    have hie : s + (i - s) = i := by omega
    exact hall (i - s) ((occursAt_add pat hay s (i - s)).mp (by rwa [hie]))
  · intro hall k hoc
    exact hall (s + k) (by omega) ((occursAt_add pat hay s k).mpr hoc)

theorem occursAt_getElem? (pat hay : List Char) (i : Nat) (h : occursAt pat hay i)
    (d : Nat) (hd : d < pat.length) : hay[i + d]? = pat[d]? := by
  unfold occursAt at h
  calc hay[i + d]? = (hay.drop i)[d]? := by rw [List.getElem?_drop]
    _ = ((hay.drop i).take pat.length)[d]? := (List.getElem?_take_of_lt hd).symm
    _ = pat[d]? := by rw [h]

theorem occursAt_singleton (c : Char) (hay : List Char) (j : Nat) :
    occursAt [c] hay j ↔ hay[j]? = some c := by
  constructor
  · intro h
    have h0 := occursAt_getElem? [c] hay j h 0 (by simp)
    simpa using h0
  · intro h
    unfold occursAt
    have h1 : (hay.drop j)[0]? = some c := by
      rw [List.getElem?_drop]; simpa using h
    cases hd : hay.drop j with
    | nil => rw [hd] at h1; simp at h1
    | cons x xs =>
      rw [hd] at h1
      simp only [List.getElem?_cons_zero, Option.some.injEq] at h1
      simp [hd, h1]

/-! ### The panic-reporting protocol -/

theorem messageMarker_length : messageMarker.length = 12 := by decide

/-- The first single quote at or after an occurrence of `  message: '` is the
opening quote embedded in the marker itself, 11 characters in. -/
theorem quote_after_message (E : List Char) (m : Nat)
    (h : occursAt messageMarker E m) :
    indexOfFrom quoteStr E m = some (m + 11) := by
  rw [indexOfFrom_eq_some_iff]
  have h11 : E[m + 11]? = some quoteChar := by
    have hq := occursAt_getElem? messageMarker E m h 11 (by rw [messageMarker_length]; omega)
    rw [hq]; decide
  refine ⟨by omega, (occursAt_singleton quoteChar E (m + 11)).mpr h11, ?_⟩
  intro j hj hmj hocc
  obtain ⟨d, rfl, hd⟩ : ∃ d, j = m + d ∧ d < 11 := ⟨j - m, by omega, by omega⟩
  have h1 := (occursAt_singleton quoteChar E (m + d)).mp hocc
  have h2 := occursAt_getElem? messageMarker E m h d (by rw [messageMarker_length]; omega)
  rw [h2] at h1
  have h3 : ∀ d, d < 11 → messageMarker[d]? ≠ some quoteChar := by decide
  exact h3 d hd h1


/-- Correctness of `find_reason`: it computes exactly the declarative panic-protocol extraction. -/
theorem find_reason_eq_some_iff (E r : List Char) :
    find_reason E = some r ↔ extractedReason E r := by
  constructor
  · intro h
    unfold find_reason at h
    simp only [Option.bind_eq_some, Option.map_eq_some'] at h
    obtain ⟨p, hp, m, hm, bq, hbq, e, he, hr⟩ := h
    have hmspec := (indexOfFrom_eq_some_iff messageMarker E p m).mp hm
    have hq := quote_after_message E m hmspec.2.1
    rw [hq, Option.some.injEq] at hbq
    subst hbq
    have he2 : indexOfFrom quoteStr E (m + 12) = some e := by
      have h12 : m + 11 + 1 = m + 12 := by omega
      rwa [h12] at he
    refine ⟨p, m, e, (indexOfFrom_eq_some_iff panicMarker E 0 p).mp hp, hmspec,
      (indexOfFrom_eq_some_iff quoteStr E (m + 12) e).mp he2, ?_⟩
    rw [← hr]
  · rintro ⟨p, m, e, hp, hm, he, hr⟩
    have hp2 := (indexOfFrom_eq_some_iff panicMarker E 0 p).mpr hp
    have hm2 := (indexOfFrom_eq_some_iff messageMarker E p m).mpr hm
    have hq := quote_after_message E m hm.2.1
    have he2 := (indexOfFrom_eq_some_iff quoteStr E (m + 12) e).mpr he
    unfold find_reason
    simp only [Option.bind_eq_some, Option.map_eq_some']
    refine ⟨p, hp2, m, hm2, m + 11, hq, e, ?_, ?_⟩
    · have h12 : m + 11 + 1 = m + 12 := by omega
      rwa [h12]
    · have h12 : m + 11 + 1 = m + 12 := by omega
      rw [h12, hr]

/-- When the marker is present but the rest of the protocol is incomplete,
`find_reason` yields nothing. -/
theorem find_reason_eq_none_of_incomplete (E : List Char) (p : Nat)
    (hp : firstOccurFromSpec panicMarker E 0 p)
    (hinc : (∀ m, p ≤ m → ¬ occursAt messageMarker E m) ∨
      ∃ m, firstOccurFromSpec messageMarker E p m ∧
        ∀ e, m + 12 ≤ e → ¬ occursAt quoteStr E e) :
    find_reason E = none := by
  have hp2 := (indexOfFrom_eq_some_iff panicMarker E 0 p).mpr hp
  unfold find_reason
  rcases hinc with hnomsg | ⟨m, hm, hnoq⟩
  · have hm2 : indexOfFrom messageMarker E p = none :=
      (indexOfFrom_eq_none_iff messageMarker E p).mpr hnomsg
    rw [hp2, Option.some_bind, hm2, Option.none_bind]
  · have hm2 := (indexOfFrom_eq_some_iff messageMarker E p m).mpr hm
    have hq := quote_after_message E m hm.2.1
    have hnoq2 : indexOfFrom quoteStr E (m + 11 + 1) = none := by
      have h12 : m + 11 + 1 = m + 12 := by omega
      rw [h12]
      exact (indexOfFrom_eq_none_iff quoteStr E (m + 12)).mpr hnoq
    rw [hp2, Option.some_bind, hm2, Option.some_bind, hq, Option.some_bind, hnoq2,
      Option.map_none']

/-- If the marker never occurs at all, `find_reason` yields nothing. -/
theorem find_reason_eq_none_of_no_marker (E : List Char)
    (h : ∀ i, ¬ occursAt panicMarker E i) : find_reason E = none := by
  have h0 : indexOfFrom panicMarker E 0 = none :=
    (indexOfFrom_eq_none_iff panicMarker E 0).mpr fun i _ => h i
  unfold find_reason
  rw [h0, Option.none_bind]

/-! ### Claim theorems: the verifiers -/

theorem execute_should_run_form (res : RunResult) (a0 O : List Char) (R : Int)
    (h : pyInt a0 = some R) :
    execute_should_run res [a0, O] =
      (if R ≠ res.returncode then .ok (some (retMismatchMsg a0 res.returncode))
       else if O ≠ "none".data ∧ O ≠ res.stdout then
         .ok (some (outMismatchMsg O res.stdout))
       else .ok none) := by
  unfold execute_should_run
  simp only [List.get?_cons_zero, List.get?_cons_succ, h]

/-- Claim C1: a ShouldRun test passes iff the artifact's exit code equals the
expected return code and the expected output is the sentinel `none` or the
captured stdout equals it exactly; a return-code mismatch is reported naming
the field with both values, and an output mismatch likewise. -/
theorem c1_should_run_verdict (res : RunResult) (a0 O : List Char) (R : Int)
    (h : pyInt a0 = some R) :
    (execute_should_run res [a0, O] = .ok none ↔
      (res.returncode = R ∧ (O = "none".data ∨ res.stdout = O))) ∧
    (res.returncode ≠ R →
      execute_should_run res [a0, O] =
        .ok (some (retMismatchMsg a0 res.returncode))) ∧
    (res.returncode = R → O ≠ "none".data → res.stdout ≠ O →
      execute_should_run res [a0, O] =
        .ok (some (outMismatchMsg O res.stdout))) := by
  have hform := execute_should_run_form res a0 O R h
  refine ⟨?_, ?_, ?_⟩
  · rw [hform]
    split_ifs with h1 h2
    · apply iff_of_false
      · simp
      · rintro ⟨hrc, _⟩; exact h1 hrc.symm
    · apply iff_of_false
      · simp
      · rintro ⟨_, hO⟩
        rcases hO with hO | hO
        · exact h2.1 hO
        · exact h2.2 hO.symm
    · push_neg at h1 h2
      apply iff_of_true rfl
      refine ⟨h1.symm, ?_⟩
      by_cases hO : O = "none".data
      · exact Or.inl hO
      · exact Or.inr (h2 hO).symm
  · intro hne
    rw [hform, if_pos fun hh => hne hh.symm]
  · intro heq hO hS
    rw [hform, if_neg (not_not_intro heq.symm), if_pos ⟨hO, fun hh => hS hh.symm⟩]

/-- Witness for C1: a concrete run that exits 0 with stdout `3` passes the
spec `returns 0 / outputs 3`. -/
theorem c1_should_run_verdict_witness :
    pyInt "0".data = some 0 ∧
      execute_should_run ⟨0, "3".data, []⟩ ["0".data, "3".data] = .ok none :=
  ⟨rfl, (c1_should_run_verdict ⟨0, "3".data, []⟩ "0".data "3".data 0 rfl).1.mpr
    ⟨rfl, Or.inr rfl⟩⟩

/-- Claim C2 (amended): a ShouldPanic test passes iff stderr realises the
panic protocol — the panic marker occurs, `  message: '` occurs after it, and
the text strictly between the first pair of single quotes from that message
marker equals the expected reason exactly; absence of the marker yields the
failure reason `expected a panic, but did not get one!`, and an extracted but
mismatched reason yields a failure showing both values. -/
theorem c2_should_panic_verdict (res : RunResult) (T : List Char) :
    (execute_should_panic res [T] = .ok none ↔ extractedReason res.stderr T) ∧
    ((∀ i, ¬ occursAt panicMarker res.stderr i) →
      execute_should_panic res [T] =
        .ok (some "expected a panic, but did not get one!")) ∧
    (∀ r, extractedReason res.stderr r → r ≠ T →
      execute_should_panic res [T] = .ok (some (panicMismatchMsg T r))) := by
  refine ⟨?_, ?_, ?_⟩
  · unfold execute_should_panic
    cases hf : find_reason res.stderr with
    | none =>
      apply iff_of_false
      · simp
      · intro hex
        have := (find_reason_eq_some_iff res.stderr T).mpr hex
        rw [hf] at this
        exact Option.noConfusion this
    | some r =>
      simp only [List.get?_cons_zero]
      by_cases hrT : r = T
      · rw [if_neg (not_not_intro hrT)]
        apply iff_of_true rfl
        exact (find_reason_eq_some_iff res.stderr T).mp (hrT ▸ hf)
      · rw [if_pos hrT]
        apply iff_of_false
        · simp
        · intro hex
          have := (find_reason_eq_some_iff res.stderr T).mpr hex
          rw [hf] at this
          exact hrT (Option.some.injEq .. ▸ this)
  · intro h
    unfold execute_should_panic
    rw [find_reason_eq_none_of_no_marker res.stderr h]
  · intro r hex hne
    unfold execute_should_panic
    rw [(find_reason_eq_some_iff res.stderr r).mpr hex]
    simp only [List.get?_cons_zero]
    rw [if_pos hne]


/-- Witness for C2: on the concrete protocol-complete stderr, the verifier
passes for the reason `oops`. -/
theorem c2_should_panic_verdict_witness :
    extractedReason panicDemoStderr "oops".data ∧
      execute_should_panic ⟨0, [], panicDemoStderr⟩ ["oops".data] = .ok none := by
  have hex : extractedReason panicDemoStderr "oops".data :=
    ⟨0, 19, 35, by decide, by decide, by decide, by decide⟩
  exact ⟨hex,
    (c2_should_panic_verdict ⟨0, [], panicDemoStderr⟩ "oops".data).1.mpr hex⟩

/-- Counterexample for C2 as frozen: on a panic-free stderr the code's failure
reason carries a trailing exclamation mark, so it is not the string
`expected a panic, but did not get one` that the claim quotes. -/
theorem c2_frozen_message_counterexample :
    execute_should_panic ⟨0, [], []⟩ [['x']] =
        .ok (some "expected a panic, but did not get one!") ∧
      ("expected a panic, but did not get one!" : String) ≠
        "expected a panic, but did not get one" := by
  constructor
  · rfl
  · decide

/-- Claim C10: when the panic marker is present but the protocol is
incomplete — no `  message: '` at or after the first marker, or no closing
quote after the opening one — reason extraction yields nothing and the
verifier reports the missing-panic failure (and, being total, raises no
error). -/
theorem c10_incomplete_protocol (res : RunResult) (args : List (List Char))
    (p : Nat) (hp : firstOccurFromSpec panicMarker res.stderr 0 p)
    (hinc : (∀ m, p ≤ m → ¬ occursAt messageMarker res.stderr m) ∨
      ∃ m, firstOccurFromSpec messageMarker res.stderr p m ∧
        ∀ e, m + 12 ≤ e → ¬ occursAt quoteStr res.stderr e) :
    find_reason res.stderr = none ∧
      execute_should_panic res args =
        .ok (some "expected a panic, but did not get one!") := by
  have hf := find_reason_eq_none_of_incomplete res.stderr p hp hinc
  refine ⟨hf, ?_⟩
  unfold execute_should_panic
  rw [hf]

/-- Witness for C10: stderr consisting of the bare marker has no message
protocol, and the verifier reports the missing panic. -/
theorem c10_incomplete_protocol_witness :
    firstOccurFromSpec panicMarker "gallium: panicked!".data 0 0 ∧
      execute_should_panic ⟨0, [], "gallium: panicked!".data⟩ [['x']] =
        .ok (some "expected a panic, but did not get one!") := by
  have hp : firstOccurFromSpec panicMarker "gallium: panicked!".data 0 0 := by decide
  have hnomsg : indexOfFrom messageMarker "gallium: panicked!".data 0 = none := by decide
  refine ⟨hp, ?_⟩
  exact (c10_incomplete_protocol ⟨0, [], "gallium: panicked!".data⟩ [['x']] 0 hp
    (Or.inl fun m hm =>
      (indexOfFrom_eq_none_iff messageMarker "gallium: panicked!".data 0).mp hnomsg m
        (Nat.zero_le m))).2

/-! ### Claim theorems: compile gate, artifact naming, environments -/



/-- Claim C7 (amended): the compile gate passes iff the captured compiler
output is empty after stripping whitespace; output with a non-whitespace
character yields the constant compile-error failure `error from compiler!`
(which contains no diagnostic text), and stripped-empty output hands the task
to the matching verifier. -/
theorem c7_compile_gate_amended (env : Env) (file : List Char) (t : List Char)
    (args : List (List Char))
    (ht : t = "should-run".data ∨ t = "should-panic".data) :
    (pyStrip (env.compileOut (artifact file) file) ≠ [] →
      execute_test env (file, t, args) = .ok (some "error from compiler!")) ∧
    (pyStrip (env.compileOut (artifact file) file) = [] →
      execute_test env (file, t, args) =
        (if t = "should-run".data then
          execute_should_run (env.runExe (artifact file)) args
         else execute_should_panic (env.runExe (artifact file)) args)) := by
  have hdiff : ("should-panic".data : List Char) ≠ "should-run".data := by decide
  constructor
  · intro hne
    rcases ht with rfl | rfl
    · simp only [execute_test, if_pos rfl, if_pos hne, if_true]
    · simp only [execute_test, if_neg hdiff, if_pos rfl, if_pos hne, if_true]
  · intro hempty
    rcases ht with rfl | rfl
    · simp only [execute_test, if_pos rfl, if_neg (not_not_intro hempty), if_true]
    · simp only [execute_test, if_neg hdiff, if_pos rfl,
        if_neg (not_not_intro hempty), if_true]

/-- Witness for C7: with whitespace-only compiler output, the gate passes and
the task reaches the ShouldRun verifier. -/
theorem c7_compile_gate_amended_witness :
    pyStrip (envWhitespace.compileOut (artifact "t.gal".data) "t.gal".data) = [] ∧
      execute_test envWhitespace
          ("t.gal".data, "should-run".data, ["0".data, "none".data]) =
        execute_should_run (envWhitespace.runExe (artifact "t.gal".data))
          ["0".data, "none".data] := by
  have hempty : pyStrip (envWhitespace.compileOut (artifact "t.gal".data) "t.gal".data) = [] := by
    decide
  have h := (c7_compile_gate_amended envWhitespace "t.gal".data "should-run".data
    ["0".data, "none".data] (Or.inl rfl)).2 hempty
  rw [if_pos rfl] at h
  exact ⟨hempty, h⟩

/-- Counterexample for C7 as frozen: a compiler output consisting of one
newline is non-empty, yet the task is not given the compile-error outcome —
it proceeds to verification and passes. -/
theorem c7_whitespace_output_counterexample :
    envWhitespace.compileOut (artifact "t.gal".data) "t.gal".data ≠ [] ∧
      execute_test envWhitespace
          ("t.gal".data, "should-run".data, ["0".data, "none".data]) = .ok none ∧
      execute_test envWhitespace
          ("t.gal".data, "should-run".data, ["0".data, "none".data]) ≠
        .ok (some "error from compiler!") := by
  refine ⟨by decide, rfl, ?_⟩
  intro hc
  have h2 : (Except.ok none : TaskResult) = .ok (some "error from compiler!") := by
    rw [← hc]; rfl
  exact Option.noConfusion (Except.ok.inj h2)


theorem sanitize_eq_map_canon (p : List Char) : sanitize p = p.map canonChar := by
  unfold sanitize
  rw [List.map_map]
  have hfun : ((fun c => if c = backslashChar then '_' else c) ∘
      fun c => if c = '/' then '_' else c) = canonChar := by
    funext c
    simp only [Function.comp_apply, canonChar]
    by_cases h1 : c = '/'
    · rw [if_pos h1, if_neg (by decide : ¬ ('_' : Char) = backslashChar),
        if_pos (Or.inl h1)]
    · rw [if_neg h1]
      by_cases h2 : c = backslashChar
      · rw [if_pos h2, if_pos (Or.inr (Or.inl h2))]
      · rw [if_neg h2]
        by_cases h3 : c = '_'
        · rw [if_pos (Or.inr (Or.inr h3)), h3]
        · rw [if_neg fun hc => hc.elim h1 fun hc2 => hc2.elim h2 h3]
  rw [hfun]

/-- Claim C8 (amended): the artifact path is a deterministic function of the
sanitized source path alone (no ordinal counter), and two source paths map to
the same artifact path exactly when they agree after canonicalising `/`, `\`
and `_` to `_` — so the naming function is not injective on all distinct
discovered paths. -/
theorem c8_artifact_naming_amended (p q : List Char) :
    artifact p = artifact q ↔ p.map canonChar = q.map canonChar := by
  unfold artifact
  constructor
  · intro h
    have h2 := List.append_cancel_left h
    rwa [sanitize_eq_map_canon, sanitize_eq_map_canon] at h2
  · intro h
    rw [sanitize_eq_map_canon, sanitize_eq_map_canon, h]

/-- Counterexample for C8 as frozen: two distinct discoverable source paths
(file `a_b.gal` beside a directory `a` holding `b.gal`) receive the same
artifact path. -/
theorem c8_artifact_collision_counterexample :
    "tests/compiler/a_b.gal".data ≠ "tests/compiler/a/b.gal".data ∧
      artifact "tests/compiler/a_b.gal".data =
        artifact "tests/compiler/a/b.gal".data := by
  exact ⟨by decide, rfl⟩

/-! ### Claim theorems: parser isolation, should-assert, cleanup -/



/-- Claim C3 is a code bug: `read_test` raises (`assert False` /
`IndexError`) on reserved, unknown, or malformed headers, and one such file
aborts the whole run — the good test's outcome, reported when the bad file is
absent, is lost when it is present. -/
theorem c3_directive_error_aborts_run :
    read_test ["// test: should-fail-compile".data] = .error .assertionError ∧
      read_test ["no directive header".data] = .error .indexError ∧
      read_test ["// test: some-unknown-type".data] = .error .assertionError ∧
      (main envNull [goodRunFile] [0]).2 = .ok [("t1.gal".data, none)] ∧
      (main envNull [goodRunFile, failCompileFile] [0, 1]).2 =
        .error .assertionError := by
  exact ⟨rfl, rfl, rfl, rfl, rfl⟩

/-- Claim C6 is a code bug: `read_test` parses `should-assert` exactly like
`should-panic` (same `// reason:` argument), but `execute_test` has no
`should-assert` case — the task falls into `assert False`, so the pipeline
aborts instead of producing the should-panic outcome, and one such test kills
the whole run. -/
theorem c6_should_assert_divergence :
    read_test ["// test: should-assert".data, "// reason: div by zero".data] =
        .ok ("should-assert".data, ["div by zero".data]) ∧
      read_test ["// test: should-panic".data, "// reason: div by zero".data] =
        .ok ("should-panic".data, ["div by zero".data]) ∧
      execute_test envNull ("t.gal".data, "should-assert".data, ["div by zero".data]) =
        .error .assertionError ∧
      execute_test envNull ("t.gal".data, "should-panic".data, ["div by zero".data]) =
        .ok (some "expected a panic, but did not get one!") ∧
      (main envNull
          [("t.gal".data,
            ["// test: should-assert".data, "// reason: div by zero".data])]
          [0]).2 = .error .assertionError := by
  exact ⟨rfl, rfl, rfl, rfl, rfl⟩

/-- Claim C5: on every exit path of `main` — normal completion or an error
propagating out of discovery, parsing, or execution — the workspace directory
(with all artifacts inside it) has been removed by the time the run finishes. -/
theorem c5_workspace_cleanup (env : Env)
    (files : List (List Char × List (List Char))) (order : List Nat) :
    tmpExistsAfter (main env files order).1 = false ∧
      FsOp.rmtreeTmp ∈ (main env files order).1 := by
  unfold main
  cases runBody env files order <;> simp [tmpExistsAfter]

/-! ### Claim theorems: scheduling and determinism -/

theorem schedFold_not_mem (env : Env) (tests : List TaskTuple) :
    ∀ (order : List Nat) (tbl : Nat → Option TaskResult) (i : Nat), i ∉ order →
      List.foldl (schedStep env tests) tbl order i = tbl i := by
  intro order
  induction order with
  | nil => intro tbl i _; rfl
  | cons o rest ih =>
    intro tbl i hmem
    rw [List.foldl_cons, ih _ i fun hc => hmem (List.mem_cons_of_mem o hc)]
    unfold schedStep
    cases hg : tests.get? o with
    | none => rfl
    | some t =>
      simp only []
      rw [if_neg fun hc : i = o => hmem (hc ▸ List.mem_cons_self o rest)]

theorem schedFold_mem (env : Env) (tests : List TaskTuple) :
    ∀ (order : List Nat) (tbl : Nat → Option TaskResult) (i : Nat) (t : TaskTuple),
      tests.get? i = some t → i ∈ order →
      List.foldl (schedStep env tests) tbl order i = some (execute_test env t) := by
  intro order
  induction order with
  | nil => intro _ i _ _ hmem; exact absurd hmem (List.not_mem_nil i)
  | cons o rest ih =>
    intro tbl i t hget hmem
    rw [List.foldl_cons]
    by_cases hir : i ∈ rest
    · exact ih _ i t hget hir
    · have hio : i = o := by
        rcases List.mem_cons.mp hmem with h | h
        · exact h
        · exact absurd h hir
      subst hio
      rw [schedFold_not_mem env tests rest _ i hir]
      unfold schedStep
      rw [hget]
      simp

/-- Pool-map order preservation: whatever the completion order (any
permutation of the task indices), the collected result list is the sequential
map of `execute_test` over the tasks in discovery order. -/
theorem parallel_execute_perm (env : Env) (tests : List TaskTuple)
    (order : List Nat) (h : order.Perm (List.range tests.length)) :
    parallel_execute env tests order =
      tests.map fun t => some (execute_test env t) := by
  apply List.ext_getElem?
  intro n
  unfold parallel_execute
  by_cases hn : n < tests.length
  · have ht : tests.get? n = some tests[n] := by
      rw [List.get?_eq_getElem?]
      exact List.getElem?_eq_getElem hn
    rw [List.getElem?_map, List.getElem?_map, List.getElem?_range hn,
      List.getElem?_eq_getElem hn, Option.map_some', Option.map_some']
    have hmem : n ∈ order := h.mem_iff.mpr (List.mem_range.mpr hn)
    rw [show schedRun env tests order n = some (execute_test env tests[n]) from
      schedFold_mem env tests order _ n tests[n] ht hmem]
  · rw [List.getElem?_map, List.getElem?_map,
      List.getElem?_eq_none (by simpa using hn),
      List.getElem?_eq_none (by simpa using hn)]
    rfl

/-- Claim C4: the outcome sequence collected by `parallel_execute` is
index-aligned with discovery order — for every completion order of the
concurrent workers, the collected list equals the in-order map of the task
pipeline over the discovered tests. -/
theorem c4_pool_map_order (env : Env) (tests : List TaskTuple)
    (order : List Nat) (h : order.Perm (List.range tests.length)) :
    parallel_execute env tests order =
      tests.map fun t => some (execute_test env t) :=
  parallel_execute_perm env tests order h


/-- Witness for C4: with the workers completing in reversed order, the
collected results still line up with discovery order. -/
theorem c4_pool_map_order_witness :
    ([1, 0] : List Nat).Perm (List.range demoTests.length) ∧
      parallel_execute envNull demoTests [1, 0] =
        demoTests.map fun t => some (execute_test envNull t) := by
  have hperm : ([1, 0] : List Nat).Perm (List.range demoTests.length) :=
    List.Perm.swap 0 1 []
  exact ⟨hperm, c4_pool_map_order envNull demoTests [1, 0] hperm⟩

theorem gatherTests_length :
    ∀ (files : List (List Char × List (List Char))) (tests : List TaskTuple),
      gatherTests files = .ok tests → tests.length = files.length := by
  intro files
  induction files with
  | nil =>
    intro tests h
    unfold gatherTests at h
    rw [← Except.ok.inj h]
    rfl
  | cons f rest ih =>
    intro tests h
    unfold gatherTests at h
    cases hr : read_test f.2 with
    | error e => rw [hr] at h; exact Except.noConfusion h
    | ok ta =>
      rw [hr] at h
      cases hg : gatherTests rest with
      | error e => rw [hg] at h; exact Except.noConfusion h
      | ok ts =>
        rw [hg] at h
        have h2 := Except.ok.inj h
        rw [← h2]
        simp [ih ts hg]

/-- Claim C9: the pipeline is deterministic — two runs over the same corpus
with the same external compiler/artifact behaviour produce identical results,
whatever completion orders the two runs' worker pools happen to use. -/
theorem c9_run_deterministic (env : Env)
    (files : List (List Char × List (List Char))) (o1 o2 : List Nat)
    (h1 : o1.Perm (List.range files.length))
    (h2 : o2.Perm (List.range files.length)) :
    main env files o1 = main env files o2 := by
  have hbody : runBody env files o1 = runBody env files o2 := by
    unfold runBody
    cases hg : gatherTests files with
    | error e => rfl
    | ok tests =>
      have hlen := gatherTests_length files tests hg
      have hp1 : o1.Perm (List.range tests.length) := by rw [hlen]; exact h1
      have hp2 : o2.Perm (List.range tests.length) := by rw [hlen]; exact h2
      show (do
          let results ← collectResults (parallel_execute env tests o1)
          pure ((tests.map fun t => t.1).zip results) :
            Except PyError (List (List Char × Option String))) =
        (do
          let results ← collectResults (parallel_execute env tests o2)
          pure ((tests.map fun t => t.1).zip results))
      rw [parallel_execute_perm env tests o1 hp1,
        parallel_execute_perm env tests o2 hp2]
  unfold main
  rw [hbody]

/-- Witness for C9: the same two-file corpus run with completion orders
`[0, 1]` and `[1, 0]` yields identical reports. -/
theorem c9_run_deterministic_witness :
    ([0, 1] : List Nat).Perm
        (List.range ([goodRunFile, goodRunFile] :
          List (List Char × List (List Char))).length) ∧
      main envNull [goodRunFile, goodRunFile] [0, 1] =
        main envNull [goodRunFile, goodRunFile] [1, 0] := by
  have hp1 : ([0, 1] : List Nat).Perm (List.range 2) := List.Perm.refl _
  have hp2 : ([1, 0] : List Nat).Perm (List.range 2) := List.Perm.swap 0 1 []
  exact ⟨hp1, c9_run_deterministic envNull [goodRunFile, goodRunFile]
    [0, 1] [1, 0] hp1 hp2⟩

end TestRunner
